import Mathlib

/-!
The datepicker: validation of the format template and the picker's update function.

A shallow embedding of `main.go`.

* A Go `string` is embedded as a Lean `String`, read through its list of
  characters.  Every token the code looks for is ASCII, so a search for it gives
  the same answer on the characters as on the UTF-8 bytes.
* `time.Time.Format` belongs to the Go standard library.  `validateFormat` only
  calls it on the constant `testDate` (2006-01-02 15:04:05 UTC, a Monday), so it
  is embedded at that receiver: `nextStdChunk` follows the layout scanner of
  `time/format.go`, `stdText` gives what each layout element prints for
  `testDate`.
* `datepicker.Model` belongs to the library `bubble-datepicker`.  `model.Update`
  takes the library's update function as an argument; the definitions of the
  namespace `datepicker` give the picker the spec describes.
-/

namespace Datepicker

/-! ## Package `strings` -/

namespace strings

/-- Go `strings.HasPrefix` on character lists. -/
def hasPrefixChars : List Char → List Char → Bool
  | _, [] => true
  | [], _ :: _ => false
  | c :: s, p :: ps => c == p && hasPrefixChars s ps

/-- Go `strings.Contains` on character lists: `substr` starts at some index of `s`. -/
def containsChars : List Char → List Char → Bool
  | [], substr => hasPrefixChars [] substr
  | c :: s, substr => hasPrefixChars (c :: s) substr || containsChars s substr

/-- Go `strings.Contains(s, substr)`. -/
def Contains (s substr : String) : Bool :=
  containsChars s.data substr.data

end strings

/-! ## Package `time`: `testDate.Format(layout)` -/

namespace time

/-- The layout elements of `time/format.go` (`stdLongMonth`, ...).  A fractional
second carries its number of digits and its separator, as `stdFractionalSecond`
packs them. -/
inductive Std
  | stdLongMonth | stdMonth | stdNumMonth | stdZeroMonth
  | stdLongWeekDay | stdWeekDay
  | stdDay | stdUnderDay | stdZeroDay | stdUnderYearDay | stdZeroYearDay
  | stdHour | stdHour12 | stdZeroHour12
  | stdMinute | stdZeroMinute | stdSecond | stdZeroSecond
  | stdLongYear | stdYear
  | stdPM | stdpm
  | stdTZ
  | stdISO8601TZ | stdISO8601SecondsTZ | stdISO8601ShortTZ
  | stdISO8601ColonTZ | stdISO8601ColonSecondsTZ
  | stdNumTZ | stdNumSecondsTz | stdNumShortTZ | stdNumColonTZ | stdNumColonSecondsTZ
  | stdFracSecond0 (digits : Nat) (sep : Char)
  | stdFracSecond9 (digits : Nat) (sep : Char)
  deriving DecidableEq, Repr

open Std

/-- Go `startsWithLowerCase`: the string begins with a lower-case letter. -/
def startsWithLowerCase : List Char → Bool
  | [] => false
  | c :: _ => decide ('a' ≤ c) && decide (c ≤ 'z')

/-- Go `isDigit(s, 0)`: the string has a first byte and it is a decimal digit. -/
def isDigit : List Char → Bool
  | [] => false
  | c :: _ => decide ('0' ≤ c) && decide (c ≤ '9')

/-- Go `std0x`: the elements for "01", "02", ..., "06", by the second digit. -/
def std0x (c : Char) : Std :=
  if c = '1' then stdZeroMonth
  else if c = '2' then stdZeroDay
  else if c = '3' then stdZeroHour12
  else if c = '4' then stdZeroMinute
  else if c = '5' then stdZeroSecond
  else stdYear

/-- Go `stdFractionalSecond(code, n, c)`: the digit count is kept in 12 bits. -/
def stdFractionalSecond (nine : Bool) (n : Nat) (c : Char) : Std :=
  if nine then stdFracSecond9 (n % 4096) c else stdFracSecond0 (n % 4096) c

/-- A `return` of `nextStdChunk` from index `i`: what the returned prefix holds
from index `i` on (nothing, or the underscore of "_2006"), the layout element,
and the suffix. -/
abbrev Chunk := List Char × Std × List Char

/-- The test `layout[i:i+len(p)] == p`, on the layout from `i` on. -/
def at_ (l : List Char) (p : String) : Bool :=
  strings.hasPrefixChars l p.data

/-- The `case 'J'`: January, Jan. -/
def caseJ (l : List Char) : Option Chunk :=
  if at_ l "Jan" then
    if at_ l "January" then some ([], stdLongMonth, l.drop 7)
    else if !startsWithLowerCase (l.drop 3) then some ([], stdMonth, l.drop 3)
    else none
  else none

/-- The `case 'M'`: Monday, Mon, MST. -/
def caseM (l : List Char) : Option Chunk :=
  if 3 ≤ l.length then
    if at_ l "Mon" && at_ l "Monday" then some ([], stdLongWeekDay, l.drop 6)
    else if at_ l "Mon" && !startsWithLowerCase (l.drop 3) then some ([], stdWeekDay, l.drop 3)
    else if at_ l "MST" then some ([], stdTZ, l.drop 3)
    else none
  else none

/-- The `case '0'`: 01, 02, 03, 04, 05, 06, 002. -/
def case0 (l : List Char) : Option Chunk :=
  match l.drop 1 with
  | d :: after =>
    if '1' ≤ d ∧ d ≤ '6' then some ([], std0x d, after)
    else if at_ l "002" then some ([], stdZeroYearDay, l.drop 3)
    else none
  | [] => none

/-- The `case '1'`: 15, 1. -/
def case1 (l : List Char) : Option Chunk :=
  if at_ l "15" then some ([], stdHour, l.drop 2)
  else some ([], stdNumMonth, l.drop 1)

/-- The `case '2'`: 2006, 2. -/
def case2 (l : List Char) : Option Chunk :=
  if at_ l "2006" then some ([], stdLongYear, l.drop 4)
  else some ([], stdDay, l.drop 1)

/-- The `case '_'`: _2, _2006, __2. -/
def caseUnderscore (l : List Char) : Option Chunk :=
  if at_ l "_2" then
    -- _2006 is really a literal _, followed by stdLongYear
    if at_ l "_2006" then some (['_'], stdLongYear, l.drop 5)
    else some ([], stdUnderDay, l.drop 2)
  else if at_ l "__2" then some ([], stdUnderYearDay, l.drop 3)
  else none

/-- The `case '-'`: -070000, -07:00:00, -0700, -07:00, -07. -/
def caseMinus (l : List Char) : Option Chunk :=
  if at_ l "-070000" then some ([], stdNumSecondsTz, l.drop 7)
  else if at_ l "-07:00:00" then some ([], stdNumColonSecondsTZ, l.drop 9)
  else if at_ l "-0700" then some ([], stdNumTZ, l.drop 5)
  else if at_ l "-07:00" then some ([], stdNumColonTZ, l.drop 6)
  else if at_ l "-07" then some ([], stdNumShortTZ, l.drop 3)
  else none

/-- The `case 'Z'`: Z070000, Z07:00:00, Z0700, Z07:00, Z07. -/
def caseZ (l : List Char) : Option Chunk :=
  if at_ l "Z070000" then some ([], stdISO8601SecondsTZ, l.drop 7)
  else if at_ l "Z07:00:00" then some ([], stdISO8601ColonSecondsTZ, l.drop 9)
  else if at_ l "Z0700" then some ([], stdISO8601TZ, l.drop 5)
  else if at_ l "Z07:00" then some ([], stdISO8601ColonTZ, l.drop 6)
  else if at_ l "Z07" then some ([], stdISO8601ShortTZ, l.drop 3)
  else none

/-- The `case '.', ','`: ,000 or .000 or ,999 or .999, repeated digits for fractional
seconds, after the separator `c`.  The run of the digit `ch` must not be followed
by another digit. -/
def caseFrac (c : Char) (rest : List Char) : Option Chunk :=
  match rest with
  | ch :: _ =>
    if ch = '0' ∨ ch = '9' then
      if !isDigit (rest.dropWhile (fun x => x == ch)) then
        some ([], stdFractionalSecond (ch == '9') (rest.takeWhile (fun x => x == ch)).length c,
          rest.dropWhile (fun x => x == ch))
      else none
    else none
  | [] => none

/-- The body of the loop of `nextStdChunk` at one index `i`: the `switch` on the
byte `c` at `i`, where `rest` is the layout after it, so that `c :: rest` is the
layout from `i` on.  `some` is a `return`, `none` is falling out of the `switch`
to the next index. -/
def stdChunkAt (c : Char) (rest : List Char) : Option Chunk :=
  if c = 'J' then caseJ (c :: rest)
  else if c = 'M' then caseM (c :: rest)
  else if c = '0' then case0 (c :: rest)
  else if c = '1' then case1 (c :: rest)
  else if c = '2' then case2 (c :: rest)
  else if c = '_' then caseUnderscore (c :: rest)
  else if c = '3' then some ([], stdHour12, rest)
  else if c = '4' then some ([], stdMinute, rest)
  else if c = '5' then some ([], stdSecond, rest)
  else if c = 'P' then
    (if at_ (c :: rest) "PM" then some ([], stdPM, (c :: rest).drop 2) else none)
  else if c = 'p' then
    (if at_ (c :: rest) "pm" then some ([], stdpm, (c :: rest).drop 2) else none)
  else if c = '-' then caseMinus (c :: rest)
  else if c = 'Z' then caseZ (c :: rest)
  else if c = '.' ∨ c = ',' then caseFrac c rest
  else none

/-- Go `nextStdChunk(layout)`: the text before the first layout element, the
element (`none` for Go's `0`: there is none), and the text after it. -/
def nextStdChunk : List Char → List Char × Option Std × List Char
  | [] => ([], none, [])
  | c :: rest =>
    match stdChunkAt c rest with
    | some (p, std, suffix) => (p, some std, suffix)
    | none =>
      let r := nextStdChunk rest
      (c :: r.1, r.2.1, r.2.2)

/-- What `appendFormat` appends for one layout element when the receiver is
`testDate = time.Date(2006, 1, 2, 15, 4, 5, 0, time.UTC)`: a Monday, day 2 of the
year, zone "UTC" at offset 0, no nanoseconds.  A ".000" prints its separator and
at most nine zeros; a ".999" prints nothing, there being no fraction. -/
def stdText : Std → List Char
  | stdLongMonth => "January".data
  | stdMonth => "Jan".data
  | stdNumMonth => "1".data
  | stdZeroMonth => "01".data
  | stdLongWeekDay => "Monday".data
  | stdWeekDay => "Mon".data
  | stdDay => "2".data
  | stdUnderDay => " 2".data
  | stdZeroDay => "02".data
  | stdUnderYearDay => "  2".data
  | stdZeroYearDay => "002".data
  | stdHour => "15".data
  | stdHour12 => "3".data
  | stdZeroHour12 => "03".data
  | stdMinute => "4".data
  | stdZeroMinute => "04".data
  | stdSecond => "5".data
  | stdZeroSecond => "05".data
  | stdLongYear => "2006".data
  | stdYear => "06".data
  | stdPM => "PM".data
  | stdpm => "pm".data
  | stdTZ => "UTC".data
  | stdISO8601TZ => "Z".data
  | stdISO8601SecondsTZ => "Z".data
  | stdISO8601ShortTZ => "Z".data
  | stdISO8601ColonTZ => "Z".data
  | stdISO8601ColonSecondsTZ => "Z".data
  | stdNumTZ => "+0000".data
  | stdNumSecondsTz => "+000000".data
  | stdNumShortTZ => "+00".data
  | stdNumColonTZ => "+00:00".data
  | stdNumColonSecondsTZ => "+00:00:00".data
  | stdFracSecond0 digits sep => sep :: List.replicate (min digits 9) '0'
  | stdFracSecond9 _ _ => []

/-- The loop of `appendFormat` for `testDate`: `for layout != ""`, take the next
chunk, append its prefix, stop when there is no element, else append the
element's text and go on with the suffix.  Each round with an element shortens
the layout, so `fuel = len(layout)` rounds are enough. -/
def appendFormat : Nat → List Char → List Char
  | 0, _ => []
  | fuel + 1, layout =>
    if layout = [] then []
    else
      match nextStdChunk layout with
      | (p, none, _) => p
      | (p, some std, suffix) => p ++ stdText std ++ appendFormat fuel suffix

/-- The call `testDate.Format(layout)` of `validateFormat`. -/
def testDate_Format (layout : String) : String :=
  ⟨appendFormat layout.data.length layout.data⟩

/-- The characters a layout that prints nothing is made of. -/
def fracChar (c : Char) : Prop := c = '.' ∨ c = ',' ∨ c = '9'

/-- What a `return` at one index satisfies when it is no ".999": the suffix is
shorter than the layout from that index, and the element is no `stdFracSecond9`. -/
def Plain (l : List Char) (r : Option Chunk) : Prop :=
  ∀ p std suffix, r = some (p, std, suffix) →
    suffix.length < l.length ∧ ∀ d s, std ≠ stdFracSecond9 d s

/-- What every `return` at one index satisfies: the suffix is shorter than the
layout from that index, and a ".999" is returned only at a separator followed by
a run of nines, which the suffix follows. -/
def Good (c : Char) (rest : List Char) (r : Option Chunk) : Prop :=
  ∀ p std suffix, r = some (p, std, suffix) →
    suffix.length < (c :: rest).length ∧
    ∀ d s, std = stdFracSecond9 d s →
      p = [] ∧ (c = '.' ∨ c = ',') ∧ ∃ run, rest = run ++ suffix ∧ ∀ x ∈ run, x = '9'

end time

/-! ## `validateFormat` -/

/-- What a call of `validateFormat` does: the `error` it returns (`none` is `nil`)
and the lines it writes to standard error. -/
structure ValidateResult where
  err : Option String
  stderr : List String
  deriving DecidableEq, Repr

/-- The three errors and the warning of `validateFormat`. -/
def errEmpty : String := "format string cannot be empty"

def errEmptyOutput : String := "format string produces empty output"

def errYearToken : String :=
  "invalid year token in format string. Use '2006' for 4-digit year or '06' for 2-digit year"

def warnNoYear : String :=
  "Warning: Format string doesn't contain year token (2006 or 06)\n"

/-- The condition of the last `if` of `validateFormat`, as the source writes it. -/
def warnCondition (format : String) : Bool :=
  (format != "02.01.2006") &&
    (!strings.Contains format "2006" && !strings.Contains format "06")

/-- Function `validateFormat(format)` of `main.go`. -/
def validateFormat (format : String) : ValidateResult :=
  -- Check for common mistakes
  if format = "" then ⟨some errEmpty, []⟩
  else
    -- Test the format with a known date
    let formatted := time.testDate_Format format
    if formatted.length = 0 then ⟨some errEmptyOutput, []⟩
    -- Check for the common mistake of using 2001 or other years
    else if strings.Contains format "2001" || strings.Contains format "2002" ||
        strings.Contains format "2003" || strings.Contains format "2004" ||
        strings.Contains format "2005" || strings.Contains format "2007" then
      ⟨some errYearToken, []⟩
    -- Warn about common mistakes (missing year token)
    else if warnCondition format then ⟨none, [warnNoYear]⟩
    else ⟨none, []⟩

/-! ## The values `main.go` takes from its libraries -/

namespace time

/-- A `time.Time`, as the calendar date and the time of day it reads in its
location (nanoseconds since midnight); the location itself is left out. -/
structure Time where
  year : Int
  month : Nat
  day : Nat
  nsecOfDay : Nat
  deriving DecidableEq, Repr

/-- The zero value `time.Time{}`: January 1, year 1, 00:00:00 UTC. -/
def Time.zero : Time := ⟨1, 1, 1, 0⟩

/-- Method `t.IsZero()`: the time is the zero time. -/
def Time.IsZero (t : Time) : Bool := decide (t = Time.zero)

end time

namespace tea

/-- A `tea.Msg`: a `tea.KeyMsg`, given by what its `String()` returns, or a
message of another type. -/
inductive Msg
  | KeyMsg (name : String)
  | other (tag : Nat)
  deriving DecidableEq, Repr

/-- A `tea.Cmd`: `nil`, `tea.Quit`, or another command. -/
inductive Cmd
  | nil
  | Quit
  | other (tag : Nat)
  deriving DecidableEq, Repr

end tea

namespace key

/-- The help of a binding, as `key.WithHelp(key, desc)` sets it. -/
structure Help where
  Key : String
  Desc : String
  deriving DecidableEq, Repr

/-- A `key.Binding`: its keys and its help. -/
structure Binding where
  keys : List String
  help : Help
  deriving DecidableEq, Repr

/-- Go `key.NewBinding(key.WithKeys(keys...), key.WithHelp(k, desc))`. -/
def NewBinding (keys : List String) (k desc : String) : Binding :=
  ⟨keys, ⟨k, desc⟩⟩

/-- Go `key.Matches(msg, b)`: the key's name is one of the binding's keys. -/
def Matches (name : String) (b : Binding) : Bool :=
  decide (name ∈ b.keys)

end key

namespace help

/-- A `help.Model`; `main.go` only stores it and hands it to `View`. -/
structure Model where
  ShowAll : Bool
  deriving DecidableEq, Repr

/-- Function `help.New()`. -/
def New : Model := ⟨false⟩

end help

/-! ## The date picker -/

namespace datepicker

/-- Modelled from the spec: the library type `datepicker.Model` is missing.
`Time` and `Selected` are the fields `main.go` reads; `Time` is the focused date
of the spec's CursorState, `visibleMonth` and `visibleYear` are its displayed
month and year. -/
structure Model where
  Time : time.Time
  Selected : Bool
  visibleMonth : Nat
  visibleYear : Int
  deriving DecidableEq, Repr

end datepicker

/-- The `keyMap` of `main.go`. -/
structure keyMap where
  Up : key.Binding
  Down : key.Binding
  Left : key.Binding
  Right : key.Binding
  Enter : key.Binding
  Quit : key.Binding
  deriving DecidableEq, Repr

/-- Function `getKeyMap(dp)` of `main.go`. -/
def getKeyMap (_dp : datepicker.Model) : keyMap :=
  { Up := key.NewBinding ["up", "k"] "↑/k" "up"
    Down := key.NewBinding ["down", "j"] "↓/j" "down"
    Left := key.NewBinding ["left", "h"] "←/h" "left"
    Right := key.NewBinding ["right", "l"] "→/l" "right"
    Enter := key.NewBinding ["enter"] "enter" "select"
    Quit := key.NewBinding ["q", "ctrl+c"] "q" "quit" }

namespace datepicker

/-- Modelled from the spec: the Calendar Arithmetic of the library is missing.
A year is a leap year iff divisible by 4, not by 100 unless by 400. -/
def isLeap (year : Int) : Bool :=
  decide (year % 4 = 0) && (decide (year % 100 ≠ 0) || decide (year % 400 = 0))

/-- Modelled from the spec: the library's `daysInMonth` is missing; 28 to 31 by
the Gregorian rules. -/
def daysInMonth (year : Int) (month : Nat) : Nat :=
  if month = 2 then (if isLeap year then 29 else 28)
  else if month = 4 ∨ month = 6 ∨ month = 9 ∨ month = 11 then 30
  else 31

/-- Modelled from the spec: the construction of a CalendarDate is missing.  A day
out of range is normalized by calendar arithmetic: a day past the end of the
month rolls into the next month (the next year after December), a day before the
first rolls into the month before.  `fuel` bounds the number of months rolled. -/
def normalize : Nat → Int → Nat → Int → Int × Nat × Int
  | 0, year, month, day => (year, month, day)
  | fuel + 1, year, month, day =>
    if (daysInMonth year month : Int) < day then
      if month < 12 then normalize fuel year (month + 1) (day - daysInMonth year month)
      else normalize fuel (year + 1) 1 (day - daysInMonth year month)
    else if day < 1 then
      if 1 < month then normalize fuel year (month - 1) (day + daysInMonth year (month - 1))
      else normalize fuel (year - 1) 12 (day + daysInMonth (year - 1) 12)
    else (year, month, day)

/-- Modelled from the spec: the library's `addDays` is missing; the day moves by
`delta` and the date is normalized across month and year boundaries.  A month
has at least 28 days, so `|delta| + 1` rolls are enough from a valid date. -/
def addDays (t : time.Time) (delta : Int) : time.Time :=
  let r := normalize (delta.natAbs + 1) t.year t.month ((t.day : Int) + delta)
  { t with year := r.1, month := r.2.1, day := r.2.2.toNat }

/-- A valid calendar date: the month is 1 to 12 and the day is within the month. -/
def validDate (t : time.Time) : Prop :=
  1 ≤ t.month ∧ t.month ≤ 12 ∧ 1 ≤ t.day ∧ t.day ≤ daysInMonth t.year t.month

/-- The NavigationCommand of the spec. -/
inductive NavigationCommand
  | MoveUp | MoveDown | MoveLeft | MoveRight | Confirm | Quit
  deriving DecidableEq, Repr

open NavigationCommand

/-- Modelled from the spec: the Input Mapper of the library is missing.  The
table is the one `getKeyMap` returns; any other key maps to nothing. -/
def mapKey (dp : Model) (rawKey : String) : Option NavigationCommand :=
  let keys := getKeyMap dp
  if key.Matches rawKey keys.Up then some MoveUp
  else if key.Matches rawKey keys.Down then some MoveDown
  else if key.Matches rawKey keys.Left then some MoveLeft
  else if key.Matches rawKey keys.Right then some MoveRight
  else if key.Matches rawKey keys.Enter then some Confirm
  else if key.Matches rawKey keys.Quit then some Quit
  else none

/-- Modelled from the spec: the focus moves to `t`; if `t` falls outside the
visible month, the visible month and year change to match it. -/
def moveTo (dp : Model) (t : time.Time) : Model :=
  if t.month = dp.visibleMonth ∧ t.year = dp.visibleYear then { dp with Time := t }
  else { dp with Time := t, visibleMonth := t.month, visibleYear := t.year }

/-- Modelled from the spec: the library's `datepicker.New` is missing; the focus
is on the given date and the visible month and year are derived from it. -/
def New (t : time.Time) : Model :=
  { Time := t, Selected := false, visibleMonth := t.month, visibleYear := t.year }

/-- Modelled from the spec: the library's `SelectDate` is missing; it marks the
focused date as the highlighted one, which `model.Update` reads as `Selected`. -/
def SelectDate (dp : Model) : Model :=
  { dp with Selected := true }

/-- Modelled from the spec: the library's `Model.Update` is missing.  MoveLeft and
MoveRight move the focused date by one day, MoveUp and MoveDown by seven; Confirm
and Quit are the caller's (`model.Update`), and a key that maps to nothing, or a
message that is no key, is dropped. -/
def Update (dp : Model) (msg : tea.Msg) : Model × tea.Cmd :=
  match msg with
  | tea.Msg.KeyMsg name =>
    match mapKey dp name with
    | some MoveLeft => (moveTo dp (addDays dp.Time (-1)), tea.Cmd.nil)
    | some MoveRight => (moveTo dp (addDays dp.Time 1), tea.Cmd.nil)
    | some MoveUp => (moveTo dp (addDays dp.Time (-7)), tea.Cmd.nil)
    | some MoveDown => (moveTo dp (addDays dp.Time 7), tea.Cmd.nil)
    | _ => (dp, tea.Cmd.nil)
  | _ => (dp, tea.Cmd.nil)

end datepicker

/-! ## `model` and `main` -/

/-- The `model` of `main.go`. -/
structure model where
  datepicker : datepicker.Model
  help : help.Model
  selected : time.Time
  quitting : Bool
  deriving DecidableEq, Repr

/-- Function `initialModel()` of `main.go`, where `now` is `time.Now()`;
`selected` and `quitting` are left at their zero values. -/
def initialModel (now : time.Time) : model :=
  let dp := datepicker.SelectDate (datepicker.New now)
  { datepicker := dp, help := help.New, selected := time.Time.zero, quitting := false }

/-- The update function of a date picker, `datepicker.Model.Update`. -/
abbrev PickerUpdate := datepicker.Model → tea.Msg → datepicker.Model × tea.Cmd

/-- The end of `model.Update`: the message goes to the date picker. -/
def model.forward (dpUpdate : PickerUpdate) (m : model) (msg : tea.Msg) : model × tea.Cmd :=
  let r := dpUpdate m.datepicker msg
  ({ m with datepicker := r.1 }, r.2)

/-- Method `model.Update(msg)` of `main.go`, with the date picker's update
function `dpUpdate` for the call `m.datepicker.Update(msg)`. -/
def model.Update (dpUpdate : PickerUpdate) (m : model) (msg : tea.Msg) : model × tea.Cmd :=
  match msg with
  | tea.Msg.KeyMsg name =>
    if name = "ctrl+c" ∨ name = "q" then
      ({ m with quitting := true }, tea.Cmd.Quit)
    else if name = "enter" then
      if m.datepicker.Selected then
        ({ m with selected := m.datepicker.Time, quitting := true }, tea.Cmd.Quit)
      else model.forward dpUpdate m msg
    else model.forward dpUpdate m msg
  | _ => model.forward dpUpdate m msg

/-- The messages of a session folded through `model.Update`, from model `m`: the
last model and the command the last call returned (`nil` before any message). -/
def model.run (dpUpdate : PickerUpdate) (m : model) (msgs : List tea.Msg) : model × tea.Cmd :=
  msgs.foldl (fun s msg => model.Update dpUpdate s.1 msg) (m, tea.Cmd.nil)

/-- What `main` does, in order. -/
inductive Effect
  | Stderr (text : String)
  | Stdout (text : String)
  | RunProgram (initial : model)
  | Exit (code : Nat)
  deriving DecidableEq, Repr

/-- Function `main()` of `main.go`, from the call of `validateFormat` on.
`prog` is `filepath.Base(os.Args[0])`, `formatFlag` the parsed value of
`--format`, `now` is `time.Now()`, `session` is `p.Run()` (the final model, or an
error) and `Format` is `time.Time.Format`.  Returning from `main` is `Exit 0`. -/
def main (prog formatFlag : String) (now : time.Time)
    (session : model → Except String model) (Format : time.Time → String → String) :
    List Effect :=
  let v := validateFormat formatFlag
  v.stderr.map Effect.Stderr ++
  match v.err with
  | some err =>
    [Effect.Stderr ("Error: " ++ err ++ "\n"),
     Effect.Stderr ("Run '" ++ prog ++ " --help' for format examples\n"),
     Effect.Exit 1]
  | none =>
    Effect.RunProgram (initialModel now) ::
    match session (initialModel now) with
    | Except.error err => [Effect.Stderr ("Error: " ++ err ++ "\n"), Effect.Exit 1]
    | Except.ok m =>
      if !m.selected.IsZero then
        [Effect.Stdout (Format m.selected formatFlag ++ "\n"), Effect.Exit 0]
      else [Effect.Exit 0]

/-- The lines `main` writes to standard output. -/
def stdoutOf : List Effect → List String
  | [] => []
  | Effect.Stdout text :: rest => text :: stdoutOf rest
  | _ :: rest => stdoutOf rest

/-- Whether a picker session is started. -/
def startsSession : List Effect → Bool
  | [] => false
  | Effect.RunProgram _ :: _ => true
  | _ :: rest => startsSession rest

/-- The exit code: the code of the first `Exit`. -/
def exitCode : List Effect → Option Nat
  | [] => none
  | Effect.Exit code :: _ => some code
  | _ :: rest => exitCode rest

/-- The date `year`-`month`-`day` at midnight. -/
def date (year : Int) (month day : Nat) : time.Time := ⟨year, month, day, 0⟩

/-! ## Lemmas on `strings.Contains` -/

namespace strings

theorem hasPrefixChars_iff (s p : List Char) : hasPrefixChars s p = true ↔ p <+: s := by
  induction p generalizing s with
  | nil => simp [hasPrefixChars]
  | cons a p ih =>
    cases s with
    | nil => simp [hasPrefixChars]
    | cons c s =>
      simp only [hasPrefixChars, Bool.and_eq_true, beq_iff_eq, ih, List.cons_prefix_cons]
      exact ⟨fun h => ⟨h.1.symm, h.2⟩, fun h => ⟨h.1.symm, h.2⟩⟩

theorem containsChars_iff (s sub : List Char) : containsChars s sub = true ↔ sub <:+: s := by
  induction s with
  | nil =>
    simp only [containsChars, hasPrefixChars_iff, List.prefix_nil, List.infix_nil]
  | cons c s ih =>
    simp only [containsChars, Bool.or_eq_true, hasPrefixChars_iff, ih, List.infix_cons_iff]

theorem containsChars_mem {s sub : List Char} (h : containsChars s sub = true) :
    ∀ c ∈ sub, c ∈ s :=
  fun _ hc => ((containsChars_iff s sub).1 h).subset hc

theorem containsChars_mono {s sub sub' : List Char} (hsub : sub' <:+: sub)
    (h : containsChars s sub = true) : containsChars s sub' = true :=
  (containsChars_iff s sub').2 (hsub.trans ((containsChars_iff s sub).1 h))

end strings

/-! ## Lemmas on `testDate.Format` -/

namespace time

open Std

theorem stdText_eq_nil {std : Std} (h : stdText std = []) :
    ∃ digits sep, std = stdFracSecond9 digits sep := by
  cases std <;> first
    | exact ⟨_, _, rfl⟩
    | exact absurd h (by decide)
    | exact absurd h (by simp [stdText])

theorem std0x_ne (d : Char) (digits : Nat) (sep : Char) :
    std0x d ≠ stdFracSecond9 digits sep := by
  unfold std0x
  split_ifs <;> simp

theorem plain_none (l : List Char) : Plain l none := by
  intro p std suffix h
  cases h

theorem plain_ite {l : List Char} {b : Prop} [Decidable b] {x y : Option Chunk}
    (hx : Plain l x) (hy : Plain l y) : Plain l (if b then x else y) := by
  by_cases h : b
  · rw [if_pos h]; exact hx
  · rw [if_neg h]; exact hy

theorem plain_drop (c : Char) (rest p : List Char) (std : Std) (k : Nat)
    (hstd : ∀ d s, std ≠ stdFracSecond9 d s) :
    Plain (c :: rest) (some (p, std, (c :: rest).drop (k + 1))) := by
  intro p' std' suffix h
  simp only [Option.some.injEq, Prod.mk.injEq] at h
  obtain ⟨-, rfl, rfl⟩ := h
  refine ⟨?_, hstd⟩
  simp only [List.drop_succ_cons, List.length_drop, List.length_cons]
  omega

theorem plain_rest (c : Char) (rest p : List Char) (std : Std)
    (hstd : ∀ d s, std ≠ stdFracSecond9 d s) :
    Plain (c :: rest) (some (p, std, rest)) :=
  plain_drop c rest p std 0 hstd

theorem caseJ_plain (c : Char) (rest : List Char) : Plain (c :: rest) (caseJ (c :: rest)) := by
  unfold caseJ
  refine plain_ite (plain_ite (plain_drop _ _ _ _ 6 ?_) (plain_ite (plain_drop _ _ _ _ 2 ?_)
    (plain_none _))) (plain_none _) <;> intro d s h <;> cases h

theorem caseM_plain (c : Char) (rest : List Char) : Plain (c :: rest) (caseM (c :: rest)) := by
  unfold caseM
  refine plain_ite (plain_ite (plain_drop _ _ _ _ 5 ?_) (plain_ite (plain_drop _ _ _ _ 2 ?_)
    (plain_ite (plain_drop _ _ _ _ 2 ?_) (plain_none _)))) (plain_none _) <;>
    intro d s h <;> cases h

theorem case0_plain (c : Char) (rest : List Char) : Plain (c :: rest) (case0 (c :: rest)) := by
  unfold case0
  cases rest with
  | nil => exact plain_none _
  | cons d after =>
    simp only [List.drop_succ_cons, List.drop_zero]
    refine plain_ite ?_ (plain_ite (plain_drop _ _ _ _ 2 ?_) (plain_none _))
    · exact plain_drop c (d :: after) [] (std0x d) 1 (fun digits sep => std0x_ne d digits sep)
    · intro d s h; cases h

theorem case1_plain (c : Char) (rest : List Char) : Plain (c :: rest) (case1 (c :: rest)) := by
  unfold case1
  refine plain_ite (plain_drop _ _ _ _ 1 ?_) (plain_drop _ _ _ _ 0 ?_) <;>
    intro d s h <;> cases h

theorem case2_plain (c : Char) (rest : List Char) : Plain (c :: rest) (case2 (c :: rest)) := by
  unfold case2
  refine plain_ite (plain_drop _ _ _ _ 3 ?_) (plain_drop _ _ _ _ 0 ?_) <;>
    intro d s h <;> cases h

theorem caseUnderscore_plain (c : Char) (rest : List Char) :
    Plain (c :: rest) (caseUnderscore (c :: rest)) := by
  unfold caseUnderscore
  refine plain_ite (plain_ite (plain_drop _ _ _ _ 4 ?_) (plain_drop _ _ _ _ 1 ?_))
    (plain_ite (plain_drop _ _ _ _ 2 ?_) (plain_none _)) <;> intro d s h <;> cases h

theorem caseMinus_plain (c : Char) (rest : List Char) :
    Plain (c :: rest) (caseMinus (c :: rest)) := by
  unfold caseMinus
  refine plain_ite (plain_drop _ _ _ _ 6 ?_) (plain_ite (plain_drop _ _ _ _ 8 ?_)
    (plain_ite (plain_drop _ _ _ _ 4 ?_) (plain_ite (plain_drop _ _ _ _ 5 ?_)
    (plain_ite (plain_drop _ _ _ _ 2 ?_) (plain_none _))))) <;> intro d s h <;> cases h

theorem caseZ_plain (c : Char) (rest : List Char) : Plain (c :: rest) (caseZ (c :: rest)) := by
  unfold caseZ
  refine plain_ite (plain_drop _ _ _ _ 6 ?_) (plain_ite (plain_drop _ _ _ _ 8 ?_)
    (plain_ite (plain_drop _ _ _ _ 4 ?_) (plain_ite (plain_drop _ _ _ _ 5 ?_)
    (plain_ite (plain_drop _ _ _ _ 2 ?_) (plain_none _))))) <;> intro d s h <;> cases h

theorem good_of_plain {c : Char} {rest : List Char} {r : Option Chunk}
    (h : Plain (c :: rest) r) : Good c rest r := by
  intro p std suffix hr
  exact ⟨(h p std suffix hr).1, fun d s hs => absurd hs ((h p std suffix hr).2 d s)⟩

theorem good_ite {c : Char} {rest : List Char} {b : Prop} [Decidable b] {x y : Option Chunk}
    (hx : b → Good c rest x) (hy : Good c rest y) : Good c rest (if b then x else y) := by
  by_cases h : b
  · rw [if_pos h]; exact hx h
  · rw [if_neg h]; exact hy

theorem caseFrac_good (c : Char) (rest : List Char) (hc : c = '.' ∨ c = ',') :
    Good c rest (caseFrac c rest) := by
  intro p std suffix h
  cases rest with
  | nil => simp [caseFrac] at h
  | cons ch tl =>
    simp only [caseFrac] at h
    by_cases h1 : ch = '0' ∨ ch = '9'
    · rw [if_pos h1] at h
      by_cases h2 : (!isDigit (List.dropWhile (fun x => x == ch) (ch :: tl))) = true
      · rw [if_pos h2] at h
        simp only [Option.some.injEq, Prod.mk.injEq] at h
        obtain ⟨hp, hstd, hsuf⟩ := h
        constructor
        · rw [← hsuf]
          have := (@List.dropWhile_sublist _ (ch :: tl) (fun x => x == ch)).length_le
          simp only [List.length_cons] at this ⊢
          omega
        · intro d s hs
          have h9 : ch = '9' := by
            by_contra hne
            rw [← hstd] at hs
            simp [stdFractionalSecond, hne] at hs
          subst h9
          refine ⟨hp.symm, hc, List.takeWhile (fun x => x == '9') ('9' :: tl), ?_, ?_⟩
          · rw [← hsuf, List.takeWhile_append_dropWhile]
          · intro x hx
            simpa using List.mem_takeWhile_imp hx
      · rw [if_neg h2] at h; cases h
    · rw [if_neg h1] at h; cases h

theorem stdChunkAt_good (c : Char) (rest : List Char) : Good c rest (stdChunkAt c rest) := by
  unfold stdChunkAt
  refine good_ite (fun _ => good_of_plain (caseJ_plain c rest)) ?_
  refine good_ite (fun _ => good_of_plain (caseM_plain c rest)) ?_
  refine good_ite (fun _ => good_of_plain (case0_plain c rest)) ?_
  refine good_ite (fun _ => good_of_plain (case1_plain c rest)) ?_
  refine good_ite (fun _ => good_of_plain (case2_plain c rest)) ?_
  refine good_ite (fun _ => good_of_plain (caseUnderscore_plain c rest)) ?_
  refine good_ite (fun _ => good_of_plain (plain_rest c rest _ _ (by intro d s h; cases h))) ?_
  refine good_ite (fun _ => good_of_plain (plain_rest c rest _ _ (by intro d s h; cases h))) ?_
  refine good_ite (fun _ => good_of_plain (plain_rest c rest _ _ (by intro d s h; cases h))) ?_
  refine good_ite (fun _ => good_of_plain (plain_ite
    (plain_drop c rest _ _ 1 (by intro d s h; cases h)) (plain_none _))) ?_
  refine good_ite (fun _ => good_of_plain (plain_ite
    (plain_drop c rest _ _ 1 (by intro d s h; cases h)) (plain_none _))) ?_
  refine good_ite (fun _ => good_of_plain (caseMinus_plain c rest)) ?_
  refine good_ite (fun _ => good_of_plain (caseZ_plain c rest)) ?_
  refine good_ite (fun hc => caseFrac_good c rest hc) ?_
  exact good_of_plain (plain_none _)

theorem nextStdChunk_cons (c : Char) (rest : List Char) :
    nextStdChunk (c :: rest) =
      match stdChunkAt c rest with
      | some (p, std, suffix) => (p, some std, suffix)
      | none => (c :: (nextStdChunk rest).1, (nextStdChunk rest).2.1, (nextStdChunk rest).2.2) :=
  rfl

/-- Without a layout element the whole layout is the prefix. -/
theorem nextStdChunk_none {l p suffix : List Char} (h : nextStdChunk l = (p, none, suffix)) :
    p = l := by
  induction l generalizing p suffix with
  | nil =>
    simp only [nextStdChunk, Prod.mk.injEq] at h
    exact h.1.symm
  | cons c rest ih =>
    rw [nextStdChunk_cons] at h
    cases hc : stdChunkAt c rest with
    | some r =>
      obtain ⟨p', std, suffix'⟩ := r
      rw [hc] at h
      simp at h
    | none =>
      rw [hc] at h
      simp only [Prod.mk.injEq] at h
      obtain ⟨hp, hn, hs⟩ := h
      have : (nextStdChunk rest).1 = rest :=
        @ih (nextStdChunk rest).1 (nextStdChunk rest).2.2 (by rw [← hn])
      rw [← hp, this]

/-- The suffix after a layout element is shorter than the layout. -/
theorem nextStdChunk_length {l p suffix : List Char} {std : Std}
    (h : nextStdChunk l = (p, some std, suffix)) : suffix.length < l.length := by
  induction l generalizing p suffix with
  | nil => simp [nextStdChunk] at h
  | cons c rest ih =>
    rw [nextStdChunk_cons] at h
    cases hc : stdChunkAt c rest with
    | some r =>
      obtain ⟨p', std', suffix'⟩ := r
      rw [hc] at h
      simp only [Prod.mk.injEq, Option.some.injEq] at h
      obtain ⟨-, -, rfl⟩ := h
      exact (stdChunkAt_good c rest p' std' suffix' hc).1
    | none =>
      rw [hc] at h
      simp only [Prod.mk.injEq] at h
      obtain ⟨-, hn, hs⟩ := h
      have := @ih (nextStdChunk rest).1 (nextStdChunk rest).2.2 (by rw [← hn])
      rw [hs] at this
      simp only [List.length_cons]
      omega

/-- A ".999" with an empty prefix: the layout is a separator, nines, the suffix. -/
theorem nextStdChunk_frac9 {l suffix : List Char} {d : Nat} {s : Char}
    (h : nextStdChunk l = ([], some (stdFracSecond9 d s), suffix)) :
    ∃ c run, l = c :: (run ++ suffix) ∧ (c = '.' ∨ c = ',') ∧ ∀ x ∈ run, x = '9' := by
  cases l with
  | nil => simp [nextStdChunk] at h
  | cons c rest =>
    rw [nextStdChunk_cons] at h
    cases hc : stdChunkAt c rest with
    | some r =>
      obtain ⟨p', std', suffix'⟩ := r
      rw [hc] at h
      simp only [Prod.mk.injEq, Option.some.injEq] at h
      obtain ⟨rfl, rfl, rfl⟩ := h
      obtain ⟨-, hsep, run, hrest, hrun⟩ := (stdChunkAt_good c rest _ _ _ hc).2 d s rfl
      exact ⟨c, run, by rw [hrest], hsep, hrun⟩
    | none =>
      rw [hc] at h
      simp at h

theorem appendFormat_succ (fuel : Nat) (layout : List Char) :
    appendFormat (fuel + 1) layout =
      if layout = [] then []
      else
        match nextStdChunk layout with
        | (p, none, _) => p
        | (p, some std, suffix) => p ++ stdText std ++ appendFormat fuel suffix :=
  rfl

/-- More fuel than the length of the layout changes nothing. -/
theorem appendFormat_fuel (n m : Nat) (l : List Char) (hn : l.length ≤ n) (hm : l.length ≤ m) :
    appendFormat n l = appendFormat m l := by
  induction n generalizing m l with
  | zero =>
    have hl : l = [] := List.length_eq_zero.1 (Nat.le_zero.1 hn)
    subst hl
    cases m with
    | zero => rfl
    | succ m => simp [appendFormat]
  | succ n ih =>
    cases m with
    | zero =>
      have hl : l = [] := List.length_eq_zero.1 (Nat.le_zero.1 hm)
      subst hl
      simp [appendFormat]
    | succ m =>
      rw [appendFormat_succ, appendFormat_succ]
      by_cases hl : l = []
      · rw [if_pos hl, if_pos hl]
      · rw [if_neg hl, if_neg hl]
        rcases hc : nextStdChunk l with ⟨p, o, suffix⟩
        cases o with
        | none => rfl
        | some std =>
          have hlen := nextStdChunk_length hc
          simp only []
          rw [ih m suffix (by omega) (by omega)]

/-- A layout that prints nothing for `testDate` is made of '.', ',' and '9'. -/
theorem appendFormat_eq_nil (n : Nat) (l : List Char) (hn : l.length ≤ n)
    (h : appendFormat n l = []) : ∀ x ∈ l, fracChar x := by
  induction n generalizing l with
  | zero =>
    have hl : l = [] := List.length_eq_zero.1 (Nat.le_zero.1 hn)
    subst hl
    intro x hx
    cases hx
  | succ n ih =>
    rw [appendFormat_succ] at h
    by_cases hl : l = []
    · subst hl
      intro x hx
      cases hx
    · rw [if_neg hl] at h
      rcases hc : nextStdChunk l with ⟨p, o, suffix⟩
      rw [hc] at h
      cases o with
      | none =>
        simp only [] at h
        exact absurd ((nextStdChunk_none hc).symm.trans h) hl
      | some std =>
        simp only [List.append_eq_nil] at h
        obtain ⟨⟨hp, htext⟩, hrec⟩ := h
        subst hp
        obtain ⟨d, s, rfl⟩ := stdText_eq_nil htext
        have hlen := nextStdChunk_length hc
        obtain ⟨c, run, hl', hsep, hrun⟩ := nextStdChunk_frac9 hc
        have hsuf := ih suffix (by omega) hrec
        intro x hx
        rw [hl'] at hx
        simp only [List.mem_cons, List.mem_append] at hx
        rcases hx with rfl | hx | hx
        · rcases hsep with h1 | h1
          · exact Or.inl h1
          · exact Or.inr (Or.inl h1)
        · exact Or.inr (Or.inr (hrun x hx))
        · exact hsuf x hx

/-- A template with a character other than '.', ',' and '9' formats `testDate`
to a text that is not empty. -/
theorem testDate_Format_length_ne_zero (format : String) (c : Char) (hc : c ∈ format.data)
    (hfrac : ¬ fracChar c) : (testDate_Format format).length ≠ 0 := by
  intro h
  have hnil : appendFormat format.data.length format.data = [] :=
    List.length_eq_zero.1 h
  exact hfrac (appendFormat_eq_nil _ _ (Nat.le_refl _) hnil c hc)

end time

/-! ## Theorems on `validateFormat` -/

section Validate

open strings

theorem contains_06_of_2006 (format : String) (h : Contains format "2006" = true) :
    Contains format "06" = true :=
  @containsChars_mono format.data "2006".data "06".data ⟨"20".data, [], by decide⟩ h

theorem warnCondition_eq (format : String) :
    warnCondition format = !Contains format "06" := by
  unfold warnCondition
  cases h06 : Contains format "06" with
  | true => simp
  | false =>
    have h2006 : Contains format "2006" = false := by
      cases h : Contains format "2006" with
      | false => rfl
      | true => rw [contains_06_of_2006 format h] at h06; cases h06
    have hne : format ≠ "02.01.2006" := by
      intro he
      rw [he] at h06
      exact absurd h06 (by decide)
    simp [h2006, hne]

/-- C1: a template that contains "2001" makes validateFormat return the year-token
error, and no other error. -/
theorem C1_template_with_2001_rejected (format : String)
    (h : strings.Contains format "2001" = true) :
    validateFormat format =
      ⟨some ("invalid year token in format string. " ++
        "Use '2006' for 4-digit year or '06' for 2-digit year"), []⟩ := by
  have hmem : '2' ∈ format.data := containsChars_mem h '2' (by decide)
  have hne : format ≠ "" := by
    intro he
    rw [he] at hmem
    cases hmem
  have hlen : (time.testDate_Format format).length ≠ 0 :=
    time.testDate_Format_length_ne_zero format '2' hmem (by unfold time.fracChar; decide)
  unfold validateFormat
  rw [if_neg hne]
  simp only []
  rw [if_neg hlen, h]
  rfl

theorem C1_template_with_2001_rejected_witness :
    validateFormat "02.01.2001" =
      ⟨some ("invalid year token in format string. " ++
        "Use '2006' for 4-digit year or '06' for 2-digit year"), []⟩ :=
  C1_template_with_2001_rejected "02.01.2001" (by decide)

/-- C3: a template that is not empty, formats the reference date to a text that
is not empty, contains none of "2001", "2002", "2003", "2004", "2005", "2007" and
has no year component (neither "2006" nor "06") makes validateFormat write the
warning to standard error and return no error. -/
theorem C3_missing_year_warning_not_fatal (format : String)
    (hne : format ≠ "") (hout : (time.testDate_Format format).length ≠ 0)
    (h2001 : strings.Contains format "2001" = false)
    (h2002 : strings.Contains format "2002" = false)
    (h2003 : strings.Contains format "2003" = false)
    (h2004 : strings.Contains format "2004" = false)
    (h2005 : strings.Contains format "2005" = false)
    (h2007 : strings.Contains format "2007" = false)
    (_h2006 : strings.Contains format "2006" = false)
    (h06 : strings.Contains format "06" = false) :
    validateFormat format =
      ⟨none, ["Warning: Format string doesn't contain year token (2006 or 06)\n"]⟩ := by
  have hw : warnCondition format = true := by
    rw [warnCondition_eq, h06]
    rfl
  unfold validateFormat
  rw [if_neg hne]
  simp only []
  rw [if_neg hout, h2001, h2002, h2003, h2004, h2005, h2007, hw]
  rfl

theorem C3_missing_year_warning_not_fatal_witness :
    validateFormat "02.01" =
      ⟨none, ["Warning: Format string doesn't contain year token (2006 or 06)\n"]⟩ :=
  C3_missing_year_warning_not_fatal "02.01" (by decide) (by decide) (by decide) (by decide)
    (by decide) (by decide) (by decide) (by decide) (by decide) (by decide)

/-- C10: the warning condition of validateFormat, (format != "02.01.2006") &&
!contains(format, "2006") && !contains(format, "06"), has for every string the
value of !contains(format, "06"); so a template for which validateFormat returns
no error gets the warning exactly when it has no "06", and the default template
"02.01.2006" gets no warning. -/
theorem C10_warning_condition_is_no_06 (format : String) :
    ((format != "02.01.2006") &&
      (!strings.Contains format "2006" && !strings.Contains format "06")) =
      (!strings.Contains format "06") ∧
    warnCondition format = (!strings.Contains format "06") ∧
    ((validateFormat format).err = none →
      (validateFormat format).stderr =
        if strings.Contains format "06" = true then []
        else ["Warning: Format string doesn't contain year token (2006 or 06)\n"]) ∧
    validateFormat "02.01.2006" = ⟨none, []⟩ := by
  refine ⟨warnCondition_eq format, warnCondition_eq format, ?_, by decide⟩
  intro herr
  unfold validateFormat at herr ⊢
  by_cases hne : format = ""
  · rw [if_pos hne] at herr
    cases herr
  · rw [if_neg hne] at herr ⊢
    simp only [] at herr ⊢
    by_cases hout : (time.testDate_Format format).length = 0
    · rw [if_pos hout] at herr
      cases herr
    · rw [if_neg hout] at herr ⊢
      split_ifs at herr with hyear hw
      · rw [if_neg hyear, warnCondition_eq format]
        cases h06 : Contains format "06" <;> rfl
      · rw [if_neg hyear, warnCondition_eq format]
        cases h06 : Contains format "06" <;> rfl

theorem C10_warning_condition_is_no_06_witness :
    (validateFormat "02.01").stderr =
        ["Warning: Format string doesn't contain year token (2006 or 06)\n"] ∧
    (validateFormat "Jan 06").stderr = [] :=
  ⟨(C10_warning_condition_is_no_06 "02.01").2.2.1 (by decide),
   (C10_warning_condition_is_no_06 "Jan 06").2.2.1 (by decide)⟩

end Validate

/-! ## Theorems on `model.Update`, `getKeyMap` and `main` -/

section Update

open tea

theorem model.forward_selected (dpUpdate : PickerUpdate) (m : model) (msg : Msg) :
    (model.forward dpUpdate m msg).1.selected = m.selected ∧
    (model.forward dpUpdate m msg).1.quitting = m.quitting := by
  simp [model.forward]

/-- A message other than the keys "enter", "q" and "ctrl+c" goes to the picker. -/
theorem model.Update_forward (dpUpdate : PickerUpdate) (m : model) (msg : Msg)
    (he : msg ≠ Msg.KeyMsg "enter") (hq : msg ≠ Msg.KeyMsg "q")
    (hc : msg ≠ Msg.KeyMsg "ctrl+c") :
    model.Update dpUpdate m msg = model.forward dpUpdate m msg := by
  cases msg with
  | other tag => rfl
  | KeyMsg name =>
    have h1 : name ≠ "enter" := fun h => he (by rw [h])
    have h2 : name ≠ "q" := fun h => hq (by rw [h])
    have h3 : name ≠ "ctrl+c" := fun h => hc (by rw [h])
    simp [model.Update, h1, h2, h3]

/-- The keys "q" and "ctrl+c" set `quitting` and return `tea.Quit`. -/
theorem model.Update_quit (dpUpdate : PickerUpdate) (m : model) (name : String)
    (h : name = "q" ∨ name = "ctrl+c") :
    model.Update dpUpdate m (Msg.KeyMsg name) = ({ m with quitting := true }, Cmd.Quit) := by
  rcases h with h | h <;> simp [model.Update, h]

/-- No message but the key "enter" changes `selected`. -/
theorem model.Update_selected (dpUpdate : PickerUpdate) (m : model) (msg : Msg)
    (he : msg ≠ Msg.KeyMsg "enter") :
    (model.Update dpUpdate m msg).1.selected = m.selected := by
  cases msg with
  | other tag => simp [model.Update, model.forward]
  | KeyMsg name =>
    have h1 : name ≠ "enter" := fun h => he (by rw [h])
    by_cases hq : name = "ctrl+c" ∨ name = "q"
    · simp [model.Update, hq]
    · simp [model.Update, hq, h1, model.forward]

/-- Folding messages without "enter" leaves `selected` as it was. -/
theorem model.run_selected (dpUpdate : PickerUpdate) (msgs : List Msg)
    (h : ∀ msg ∈ msgs, msg ≠ Msg.KeyMsg "enter") :
    ∀ s : model × Cmd,
      (msgs.foldl (fun s msg => model.Update dpUpdate s.1 msg) s).1.selected = s.1.selected := by
  induction msgs with
  | nil => intro s; rfl
  | cons msg rest ih =>
    intro s
    rw [List.foldl_cons, ih (fun x hx => h x (List.mem_cons_of_mem _ hx))]
    exact model.Update_selected dpUpdate s.1 msg (h msg (List.mem_cons_self _ _))

/-- C4: on the key "enter", a model whose datepicker has Selected = true gets
selected = the datepicker's current Time and quitting = true, keeps its datepicker
(and help) as they are, and the command returned is Quit. -/
theorem C4_confirm_commits_focused_date (dpUpdate : PickerUpdate) (m : model)
    (h : m.datepicker.Selected = true) :
    (model.Update dpUpdate m (Msg.KeyMsg "enter")).1.selected = m.datepicker.Time ∧
    (model.Update dpUpdate m (Msg.KeyMsg "enter")).1.quitting = true ∧
    (model.Update dpUpdate m (Msg.KeyMsg "enter")).1.datepicker = m.datepicker ∧
    (model.Update dpUpdate m (Msg.KeyMsg "enter")).1.help = m.help ∧
    (model.Update dpUpdate m (Msg.KeyMsg "enter")).2 = Cmd.Quit := by
  simp [model.Update, h]

theorem C4_confirm_commits_focused_date_witness :
    (model.Update datepicker.Update (initialModel (date 2024 3 15))
        (Msg.KeyMsg "enter")).1.selected = date 2024 3 15 ∧
    (model.Update datepicker.Update (initialModel (date 2024 3 15))
        (Msg.KeyMsg "enter")).1.quitting = true ∧
    (model.Update datepicker.Update (initialModel (date 2024 3 15))
        (Msg.KeyMsg "enter")).1.datepicker = (initialModel (date 2024 3 15)).datepicker ∧
    (model.Update datepicker.Update (initialModel (date 2024 3 15))
        (Msg.KeyMsg "enter")).1.help = (initialModel (date 2024 3 15)).help ∧
    (model.Update datepicker.Update (initialModel (date 2024 3 15))
        (Msg.KeyMsg "enter")).2 = Cmd.Quit :=
  C4_confirm_commits_focused_date datepicker.Update (initialModel (date 2024 3 15)) (by decide)

/-- C5: from a model in which nothing is committed (selected is the zero time,
quitting is false), every message that is not the key "enter", "q" or "ctrl+c",
so every movement key, returns a model with selected still the zero time and
quitting still false. -/
theorem C5_navigation_never_commits (dpUpdate : PickerUpdate) (m : model) (msg : Msg)
    (hs : m.selected = time.Time.zero) (hq : m.quitting = false)
    (he : msg ≠ Msg.KeyMsg "enter") (hk : msg ≠ Msg.KeyMsg "q")
    (hc : msg ≠ Msg.KeyMsg "ctrl+c") :
    (model.Update dpUpdate m msg).1.selected = time.Time.zero ∧
    (model.Update dpUpdate m msg).1.quitting = false := by
  rw [model.Update_forward dpUpdate m msg he hk hc]
  have h := model.forward_selected dpUpdate m msg
  rw [h.1, h.2]
  exact ⟨hs, hq⟩

theorem C5_navigation_never_commits_witness :
    (model.Update datepicker.Update (initialModel (date 2024 3 31))
        (Msg.KeyMsg "l")).1.selected = time.Time.zero ∧
    (model.Update datepicker.Update (initialModel (date 2024 3 31))
        (Msg.KeyMsg "l")).1.quitting = false :=
  C5_navigation_never_commits datepicker.Update (initialModel (date 2024 3 31))
    (Msg.KeyMsg "l") rfl rfl (by decide) (by decide) (by decide)

/-- C6, as the code has it: from every model in which a date has been committed
(quitting is true), every message leaves quitting true; the keys "q" and "ctrl+c"
return the model unchanged with the command Quit; the key "enter", when the
datepicker has Selected = true, leaves the datepicker as it is and sets selected
again to the datepicker's current Time, so the model is unchanged when selected
already equals it; every other message goes to the datepicker, and the model
returned differs from the old one only in the datepicker field, which is what the
datepicker's update returns; so no message but "enter" changes selected. -/
theorem C6_committed_model_update (dpUpdate : PickerUpdate) (m : model) (msg : Msg)
    (hq : m.quitting = true) :
    (model.Update dpUpdate m msg).1.quitting = true ∧
    ((msg = Msg.KeyMsg "q" ∨ msg = Msg.KeyMsg "ctrl+c") →
      model.Update dpUpdate m msg = (m, Cmd.Quit)) ∧
    ((msg = Msg.KeyMsg "enter" ∧ m.datepicker.Selected = true) →
      model.Update dpUpdate m msg = ({ m with selected := m.datepicker.Time }, Cmd.Quit)) ∧
    ((msg = Msg.KeyMsg "enter" ∧ m.datepicker.Selected = true ∧
        m.selected = m.datepicker.Time) →
      model.Update dpUpdate m msg = (m, Cmd.Quit)) ∧
    (¬ (msg = Msg.KeyMsg "q" ∨ msg = Msg.KeyMsg "ctrl+c") →
      ¬ (msg = Msg.KeyMsg "enter" ∧ m.datepicker.Selected = true) →
      model.Update dpUpdate m msg =
        ({ m with datepicker := (dpUpdate m.datepicker msg).1 }, (dpUpdate m.datepicker msg).2)) ∧
    (msg ≠ Msg.KeyMsg "enter" → (model.Update dpUpdate m msg).1.selected = m.selected) := by
  have hquit : (msg = Msg.KeyMsg "q" ∨ msg = Msg.KeyMsg "ctrl+c") →
      model.Update dpUpdate m msg = (m, Cmd.Quit) := by
    intro hk
    have hm : ({ m with quitting := true } : model) = m := by
      cases m
      simp_all
    rcases hk with h | h
    · rw [h, model.Update_quit dpUpdate m "q" (Or.inl rfl), hm]
    · rw [h, model.Update_quit dpUpdate m "ctrl+c" (Or.inr rfl), hm]
  have henter : (msg = Msg.KeyMsg "enter" ∧ m.datepicker.Selected = true) →
      model.Update dpUpdate m msg = ({ m with selected := m.datepicker.Time }, Cmd.Quit) := by
    rintro ⟨h, hsel⟩
    rw [h]
    cases m
    simp_all [model.Update]
  have hother : ¬ (msg = Msg.KeyMsg "q" ∨ msg = Msg.KeyMsg "ctrl+c") →
      ¬ (msg = Msg.KeyMsg "enter" ∧ m.datepicker.Selected = true) →
      model.Update dpUpdate m msg = model.forward dpUpdate m msg := by
    intro hk he
    by_cases hmsg : msg = Msg.KeyMsg "enter"
    · have hsel : m.datepicker.Selected = false := by
        cases h : m.datepicker.Selected with
        | false => rfl
        | true => exact absurd ⟨hmsg, h⟩ he
      rw [hmsg]
      simp [model.Update, hsel]
    · exact model.Update_forward dpUpdate m msg hmsg (fun h => hk (Or.inl h))
        (fun h => hk (Or.inr h))
  refine ⟨?_, hquit, henter, ?_, hother, model.Update_selected dpUpdate m msg⟩
  · by_cases hk : msg = Msg.KeyMsg "q" ∨ msg = Msg.KeyMsg "ctrl+c"
    · rw [hquit hk]
      exact hq
    · by_cases he : msg = Msg.KeyMsg "enter" ∧ m.datepicker.Selected = true
      · rw [henter he]
        exact hq
      · rw [hother hk he, (model.forward_selected dpUpdate m msg).2]
        exact hq
  · rintro ⟨h, hsel, hs⟩
    rw [henter ⟨h, hsel⟩]
    cases m
    simp_all

theorem C6_committed_model_update_witness :
    (model.Update datepicker.Update
        ⟨⟨date 2024 3 15, true, 3, 2024⟩, help.New, date 2024 3 15, true⟩
        (Msg.KeyMsg "l")).1.quitting = true ∧
    model.Update datepicker.Update
        ⟨⟨date 2024 3 15, true, 3, 2024⟩, help.New, date 2024 3 15, true⟩
        (Msg.KeyMsg "l") =
      (⟨⟨date 2024 3 16, true, 3, 2024⟩, help.New, date 2024 3 15, true⟩, Cmd.nil) ∧
    model.Update datepicker.Update
        ⟨⟨date 2024 3 16, true, 3, 2024⟩, help.New, date 2024 3 15, true⟩
        (Msg.KeyMsg "enter") =
      (⟨⟨date 2024 3 16, true, 3, 2024⟩, help.New, date 2024 3 16, true⟩, Cmd.Quit) ∧
    model.Update datepicker.Update
        ⟨⟨date 2024 3 15, true, 3, 2024⟩, help.New, date 2024 3 15, true⟩
        (Msg.KeyMsg "enter") =
      (⟨⟨date 2024 3 15, true, 3, 2024⟩, help.New, date 2024 3 15, true⟩, Cmd.Quit) ∧
    model.Update datepicker.Update
        ⟨⟨date 2024 3 16, true, 3, 2024⟩, help.New, date 2024 3 15, true⟩
        (Msg.KeyMsg "q") =
      (⟨⟨date 2024 3 16, true, 3, 2024⟩, help.New, date 2024 3 15, true⟩, Cmd.Quit) :=
  ⟨(C6_committed_model_update datepicker.Update
      ⟨⟨date 2024 3 15, true, 3, 2024⟩, help.New, date 2024 3 15, true⟩
      (Msg.KeyMsg "l") rfl).1,
   (C6_committed_model_update datepicker.Update
      ⟨⟨date 2024 3 15, true, 3, 2024⟩, help.New, date 2024 3 15, true⟩
      (Msg.KeyMsg "l") rfl).2.2.2.2.1 (by decide) (by decide),
   (C6_committed_model_update datepicker.Update
      ⟨⟨date 2024 3 16, true, 3, 2024⟩, help.New, date 2024 3 15, true⟩
      (Msg.KeyMsg "enter") rfl).2.2.1 ⟨rfl, rfl⟩,
   (C6_committed_model_update datepicker.Update
      ⟨⟨date 2024 3 15, true, 3, 2024⟩, help.New, date 2024 3 15, true⟩
      (Msg.KeyMsg "enter") rfl).2.2.2.1 ⟨rfl, rfl, rfl⟩,
   (C6_committed_model_update datepicker.Update
      ⟨⟨date 2024 3 16, true, 3, 2024⟩, help.New, date 2024 3 15, true⟩
      (Msg.KeyMsg "q") rfl).2.1 (Or.inl rfl)⟩

/-- C6 as stated fails, in two ways.  The model committed by "enter" on 2024-03-15
has quitting = true and selected = 2024-03-15; the key "l" then returns a model
that is not equal to it, the datepicker's focused date having moved to 2024-03-16;
and a second "enter" on that model overwrites selected with 2024-03-16.  The
second step does not call the date picker at all: it gives the same model with a
date picker that drops every message. -/
theorem C6_committed_state_not_terminal :
    (model.Update datepicker.Update (initialModel (date 2024 3 15))
        (Msg.KeyMsg "enter")).1 =
      ⟨⟨date 2024 3 15, true, 3, 2024⟩, help.New, date 2024 3 15, true⟩ ∧
    (model.Update datepicker.Update
        ⟨⟨date 2024 3 15, true, 3, 2024⟩, help.New, date 2024 3 15, true⟩
        (Msg.KeyMsg "l")).1 =
      ⟨⟨date 2024 3 16, true, 3, 2024⟩, help.New, date 2024 3 15, true⟩ ∧
    (model.Update datepicker.Update
        ⟨⟨date 2024 3 15, true, 3, 2024⟩, help.New, date 2024 3 15, true⟩
        (Msg.KeyMsg "l")).1 ≠
      ⟨⟨date 2024 3 15, true, 3, 2024⟩, help.New, date 2024 3 15, true⟩ ∧
    (model.Update datepicker.Update
        ⟨⟨date 2024 3 16, true, 3, 2024⟩, help.New, date 2024 3 15, true⟩
        (Msg.KeyMsg "enter")).1 =
      ⟨⟨date 2024 3 16, true, 3, 2024⟩, help.New, date 2024 3 16, true⟩ ∧
    (model.Update (fun dp _ => (dp, Cmd.nil))
        ⟨⟨date 2024 3 16, true, 3, 2024⟩, help.New, date 2024 3 15, true⟩
        (Msg.KeyMsg "enter")).1 =
      ⟨⟨date 2024 3 16, true, 3, 2024⟩, help.New, date 2024 3 16, true⟩ ∧
    (model.Update (fun dp _ => (dp, Cmd.nil))
        ⟨⟨date 2024 3 16, true, 3, 2024⟩, help.New, date 2024 3 15, true⟩
        (Msg.KeyMsg "enter")).1 ≠
      ⟨⟨date 2024 3 16, true, 3, 2024⟩, help.New, date 2024 3 15, true⟩ ∧
    (model.run datepicker.Update (initialModel (date 2024 3 15))
        [Msg.KeyMsg "enter", Msg.KeyMsg "l", Msg.KeyMsg "enter"]).1.selected =
      date 2024 3 16 := by
  decide

/-- C7: from the initial model, after any messages without the key "enter" and
then the key "q" or "ctrl+c", the model has quitting = true and selected still the
zero time, and the last call of Update returned Quit; when the session ends in
that model, main writes nothing to standard output and exits with code 0. -/
theorem C7_quit_without_confirm_prints_nothing (dpUpdate : PickerUpdate) (now : time.Time)
    (msgs : List Msg) (name : String)
    (hmsgs : ∀ msg ∈ msgs, msg ≠ Msg.KeyMsg "enter")
    (hname : name = "q" ∨ name = "ctrl+c") :
    (model.run dpUpdate (initialModel now) (msgs ++ [Msg.KeyMsg name])).1.quitting = true ∧
    (model.run dpUpdate (initialModel now) (msgs ++ [Msg.KeyMsg name])).1.selected
      = time.Time.zero ∧
    (model.run dpUpdate (initialModel now) (msgs ++ [Msg.KeyMsg name])).2 = Cmd.Quit ∧
    ∀ (prog formatFlag : String) (Format : time.Time → String → String),
      stdoutOf (main prog formatFlag now
        (fun m => Except.ok (model.run dpUpdate m (msgs ++ [Msg.KeyMsg name])).1) Format) = [] ∧
      ((validateFormat formatFlag).err = none →
        exitCode (main prog formatFlag now
          (fun m => Except.ok (model.run dpUpdate m (msgs ++ [Msg.KeyMsg name])).1) Format)
          = some 0) := by
  have hrun : model.run dpUpdate (initialModel now) (msgs ++ [Msg.KeyMsg name]) =
      ({ (model.run dpUpdate (initialModel now) msgs).1 with quitting := true }, Cmd.Quit) := by
    simp only [model.run, List.foldl_append, List.foldl_cons, List.foldl_nil]
    exact model.Update_quit dpUpdate _ name hname
  have hsel : (model.run dpUpdate (initialModel now) msgs).1.selected = time.Time.zero :=
    model.run_selected dpUpdate msgs hmsgs (initialModel now, Cmd.nil)
  have hmap : ∀ ws : List String, stdoutOf (ws.map Effect.Stderr) = [] ∧
      ∀ rest, stdoutOf (ws.map Effect.Stderr ++ rest) = stdoutOf rest ∧
        (exitCode (ws.map Effect.Stderr ++ rest) = exitCode rest) := by
    intro ws
    induction ws with
    | nil => simp [stdoutOf]
    | cons w ws ih => simpa [stdoutOf, exitCode] using ih
  refine ⟨by rw [hrun], by rw [hrun]; exact hsel, by rw [hrun], ?_⟩
  intro prog formatFlag Format
  have hz : (model.run dpUpdate (initialModel now) (msgs ++ [Msg.KeyMsg name])).1.selected.IsZero
      = true := by
    rw [hrun]
    simp [time.Time.IsZero, hsel]
  constructor
  · unfold main
    simp only []
    rw [((hmap _).2 _).1]
    cases (validateFormat formatFlag).err with
    | some err => simp [stdoutOf]
    | none => simp [stdoutOf, hz]
  · intro hv
    unfold main
    simp only []
    rw [((hmap _).2 _).2, hv]
    simp [exitCode, hz]

theorem C7_quit_without_confirm_prints_nothing_witness :
    (model.run datepicker.Update (initialModel (date 2024 3 15))
      ([Msg.KeyMsg "l", Msg.KeyMsg "j"] ++ [Msg.KeyMsg "q"])).1.quitting = true ∧
    (model.run datepicker.Update (initialModel (date 2024 3 15))
      ([Msg.KeyMsg "l", Msg.KeyMsg "j"] ++ [Msg.KeyMsg "q"])).1.selected = time.Time.zero ∧
    (model.run datepicker.Update (initialModel (date 2024 3 15))
      ([Msg.KeyMsg "l", Msg.KeyMsg "j"] ++ [Msg.KeyMsg "q"])).2 = Cmd.Quit :=
  ⟨(C7_quit_without_confirm_prints_nothing datepicker.Update (date 2024 3 15)
      [Msg.KeyMsg "l", Msg.KeyMsg "j"] "q" (by decide) (Or.inl rfl)).1,
   (C7_quit_without_confirm_prints_nothing datepicker.Update (date 2024 3 15)
      [Msg.KeyMsg "l", Msg.KeyMsg "j"] "q" (by decide) (Or.inl rfl)).2.1,
   (C7_quit_without_confirm_prints_nothing datepicker.Update (date 2024 3 15)
      [Msg.KeyMsg "l", Msg.KeyMsg "j"] "q" (by decide) (Or.inl rfl)).2.2.1⟩

/-- C8: getKeyMap returns the same table for every datepicker state, with the
keys Up = up, k; Down = down, j; Left = left, h; Right = right, l; Enter = enter;
Quit = q, ctrl+c. -/
theorem C8_key_table_fixed (dp dp' : datepicker.Model) :
    getKeyMap dp = getKeyMap dp' ∧
    (getKeyMap dp).Up.keys = ["up", "k"] ∧
    (getKeyMap dp).Down.keys = ["down", "j"] ∧
    (getKeyMap dp).Left.keys = ["left", "h"] ∧
    (getKeyMap dp).Right.keys = ["right", "l"] ∧
    (getKeyMap dp).Enter.keys = ["enter"] ∧
    (getKeyMap dp).Quit.keys = ["q", "ctrl+c"] :=
  ⟨rfl, rfl, rfl, rfl, rfl, rfl, rfl⟩

/-- C2: validateFormat of the empty template returns the error "format string
cannot be empty" and writes no warning; and whenever validateFormat returns an
error, main writes the error to standard error and exits with code 1 without
starting a picker session and without writing to standard output. -/
theorem C2_empty_template_rejected_before_session :
    validateFormat "" = ⟨some "format string cannot be empty", []⟩ ∧
    ∀ (prog formatFlag : String) (now : time.Time) (session : model → Except String model)
      (Format : time.Time → String → String) (err : String),
      (validateFormat formatFlag).err = some err →
        main prog formatFlag now session Format =
          (validateFormat formatFlag).stderr.map Effect.Stderr ++
            [Effect.Stderr ("Error: " ++ err ++ "\n"),
             Effect.Stderr ("Run '" ++ prog ++ " --help' for format examples\n"),
             Effect.Exit 1] ∧
        startsSession (main prog formatFlag now session Format) = false ∧
        exitCode (main prog formatFlag now session Format) = some 1 ∧
        stdoutOf (main prog formatFlag now session Format) = [] := by
  refine ⟨by decide, ?_⟩
  intro prog formatFlag now session Format err herr
  have hmain : main prog formatFlag now session Format =
      (validateFormat formatFlag).stderr.map Effect.Stderr ++
        [Effect.Stderr ("Error: " ++ err ++ "\n"),
         Effect.Stderr ("Run '" ++ prog ++ " --help' for format examples\n"),
         Effect.Exit 1] := by
    unfold main
    simp only [herr]
  have hmap : ∀ (ws : List String) (rest : List Effect),
      startsSession (ws.map Effect.Stderr ++ rest) = startsSession rest ∧
      exitCode (ws.map Effect.Stderr ++ rest) = exitCode rest ∧
      stdoutOf (ws.map Effect.Stderr ++ rest) = stdoutOf rest := by
    intro ws rest
    induction ws with
    | nil => simp
    | cons w ws ih => simpa [startsSession, exitCode, stdoutOf] using ih
  refine ⟨hmain, ?_, ?_, ?_⟩
  · rw [hmain, (hmap _ _).1]; rfl
  · rw [hmain, (hmap _ _).2.1]; rfl
  · rw [hmain, (hmap _ _).2.2]; rfl

theorem C2_empty_template_rejected_before_session_witness :
    main "datepicker" "" (date 2024 3 15) (fun m => Except.ok m) (fun _ f => f) =
      [Effect.Stderr "Error: format string cannot be empty\n",
       Effect.Stderr "Run 'datepicker --help' for format examples\n",
       Effect.Exit 1] :=
  (C2_empty_template_rejected_before_session.2 "datepicker" "" (date 2024 3 15)
    (fun m => Except.ok m) (fun _ f => f) "format string cannot be empty" (by decide)).1

end Update

/-! ## Theorems on the date picker -/

section Picker

open tea

theorem datepicker.daysInMonth_ge (year : Int) (month : Nat) :
    28 ≤ datepicker.daysInMonth year month := by
  unfold datepicker.daysInMonth
  split_ifs <;> omega

/-- The fuel of `normalize`: with `fuel` rolls left, a day between `1 - 28 * fuel`
and `28 * fuel + 28` (or already within its month) ends within its month. -/
theorem datepicker.normalize_valid (fuel : Nat) (year : Int) (month : Nat) (day : Int)
    (hm1 : 1 ≤ month) (hm12 : month ≤ 12) (hlo : 1 - 28 * (fuel : Int) ≤ day)
    (hhi : day ≤ datepicker.daysInMonth year month ∨ day ≤ 28 * (fuel : Int) + 28) :
    1 ≤ (datepicker.normalize fuel year month day).2.1 ∧
    (datepicker.normalize fuel year month day).2.1 ≤ 12 ∧
    1 ≤ (datepicker.normalize fuel year month day).2.2 ∧
    (datepicker.normalize fuel year month day).2.2 ≤
      datepicker.daysInMonth (datepicker.normalize fuel year month day).1
        (datepicker.normalize fuel year month day).2.1 := by
  induction fuel generalizing year month day with
  | zero =>
    have := datepicker.daysInMonth_ge year month
    simp only [datepicker.normalize]
    refine ⟨hm1, hm12, by omega, by omega⟩
  | succ k ih =>
    have hge := datepicker.daysInMonth_ge year month
    simp only [datepicker.normalize]
    by_cases h1 : (datepicker.daysInMonth year month : Int) < day
    · rw [if_pos h1]
      by_cases h2 : month < 12
      · rw [if_pos h2]
        exact ih year (month + 1) _ (by omega) (by omega) (by push_cast at *; omega)
          (Or.inr (by push_cast at *; omega))
      · rw [if_neg h2]
        exact ih (year + 1) 1 _ (by omega) (by omega) (by push_cast at *; omega)
          (Or.inr (by push_cast at *; omega))
    · rw [if_neg h1]
      by_cases h3 : day < 1
      · rw [if_pos h3]
        by_cases h4 : 1 < month
        · rw [if_pos h4]
          have := datepicker.daysInMonth_ge year (month - 1)
          exact ih year (month - 1) _ (by omega) (by omega) (by push_cast at *; omega)
            (Or.inl (by omega))
        · rw [if_neg h4]
          have := datepicker.daysInMonth_ge (year - 1) 12
          exact ih (year - 1) 12 _ (by omega) (by omega) (by push_cast at *; omega)
            (Or.inl (by omega))
      · rw [if_neg h3]
        dsimp only
        exact ⟨hm1, hm12, by omega, by omega⟩

/-- From a valid date `addDays` returns a valid date, whatever the number of days:
the fuel it gives `normalize` is enough. -/
theorem datepicker.addDays_valid (t : time.Time) (delta : Int)
    (h : datepicker.validDate t) : datepicker.validDate (datepicker.addDays t delta) := by
  obtain ⟨hm1, hm12, hd1, hd⟩ := h
  have hge := datepicker.daysInMonth_ge t.year t.month
  have hmax : datepicker.daysInMonth t.year t.month ≤ 31 := by
    unfold datepicker.daysInMonth
    split_ifs <;> omega
  have habs1 : delta ≤ |delta| := le_abs_self delta
  have habs2 : -|delta| ≤ delta := neg_abs_le delta
  have hv := datepicker.normalize_valid (delta.natAbs + 1) t.year t.month ((t.day : Int) + delta)
    hm1 hm12 (by push_cast; omega) (Or.inr (by push_cast; omega))
  obtain ⟨h1, h2, h3, h4⟩ := hv
  unfold datepicker.validDate datepicker.addDays
  refine ⟨h1, h2, ?_, ?_⟩
  · simp only []
    omega
  · simp only []
    omega

/-- The embedding of `Format` on the examples of the usage text of `main.go`: the
reference date prints as the layout reads, with the zone as "UTC". -/
theorem time.testDate_Format_examples :
    time.testDate_Format "02.01.2006" = "02.01.2006" ∧
    time.testDate_Format "2006-01-02" = "2006-01-02" ∧
    time.testDate_Format "01/02/2006" = "01/02/2006" ∧
    time.testDate_Format "January 2, 2006" = "January 2, 2006" ∧
    time.testDate_Format "Mon, 02 Jan 06" = "Mon, 02 Jan 06" ∧
    time.testDate_Format "Mon Jan 2 15:04:05 MST 2006" = "Mon Jan 2 15:04:05 UTC 2006" ∧
    time.testDate_Format "_2006 __2 _2 002 Z07:00 -0700 3PM 03pm Monday Month" =
      "_2006   2  2 002 Z +0000 3PM 03pm Monday Month" ∧
    time.testDate_Format "2001" = "2001" ∧
    time.testDate_Format "15:04:05.000" = "15:04:05.000" ∧
    time.testDate_Format ".9992" = ".9992" ∧
    time.testDate_Format ".999" = "" ∧
    time.testDate_Format ",9.99" = "" := by
  decide

/-- The five outcomes of `validateFormat`. -/
theorem validateFormat_examples :
    validateFormat "" = ⟨some errEmpty, []⟩ ∧
    validateFormat ".999" = ⟨some errEmptyOutput, []⟩ ∧
    validateFormat "02.01.2007" = ⟨some errYearToken, []⟩ ∧
    validateFormat "02.01" = ⟨none, [warnNoYear]⟩ ∧
    validateFormat "02.01.2006" = ⟨none, []⟩ := by
  decide

/-- The spec's calendar arithmetic on some dates, leap years included. -/
theorem datepicker.addDays_examples :
    datepicker.addDays (date 2024 3 15) 1 = date 2024 3 16 ∧
    datepicker.addDays (date 2024 3 31) 1 = date 2024 4 1 ∧
    datepicker.addDays (date 2024 12 31) 1 = date 2025 1 1 ∧
    datepicker.addDays (date 2024 3 1) (-1) = date 2024 2 29 ∧
    datepicker.addDays (date 1900 3 1) (-1) = date 1900 2 28 ∧
    datepicker.addDays (date 2000 2 28) 7 = date 2000 3 6 ∧
    datepicker.addDays (date 2024 1 3) (-7) = date 2023 12 27 ∧
    datepicker.addDays (date 2023 1 31) 31 = date 2023 3 3 := by
  decide

/-- One day after the last day of a month is day 1 of the next month. -/
theorem datepicker.addDays_last_day (t : time.Time)
    (hlast : t.day = datepicker.daysInMonth t.year t.month) :
    datepicker.addDays t 1 =
      { t with
        year := if t.month < 12 then t.year else t.year + 1
        month := if t.month < 12 then t.month + 1 else 1
        day := 1 } := by
  have hlt : (datepicker.daysInMonth t.year t.month : Int) < (t.day : Int) + 1 := by
    rw [hlast]; omega
  have hday : (t.day : Int) + 1 - (datepicker.daysInMonth t.year t.month : Int) = 1 := by
    rw [hlast]; omega
  have h1 : ∀ y m, ¬ ((datepicker.daysInMonth y m : Int) < 1) := by
    intro y m
    have := datepicker.daysInMonth_ge y m
    omega
  unfold datepicker.addDays
  by_cases hm : t.month < 12
  · simp [datepicker.normalize, hlt, hm, hday, h1]
  · simp [datepicker.normalize, hlt, hm, hday, h1]

theorem datepicker.Update_right (dp : datepicker.Model) (name : String)
    (hname : name = "right" ∨ name = "l") :
    datepicker.Update dp (Msg.KeyMsg name) =
      (datepicker.moveTo dp (datepicker.addDays dp.Time 1), Cmd.nil) := by
  rcases hname with h | h <;> subst h <;> rfl

/-- C9: when the focused date is the last day of a month, the key "right" or "l"
through Update moves the focused date to day 1 of the following month, of the
following year after December, and the visible month and year are those of the
new focused date; selected and quitting stay as they are. -/
theorem C9_move_right_wraps_month (m : model) (name : String)
    (hname : name = "right" ∨ name = "l")
    (hmonth : 1 ≤ m.datepicker.Time.month ∧ m.datepicker.Time.month ≤ 12)
    (hlast : m.datepicker.Time.day =
      datepicker.daysInMonth m.datepicker.Time.year m.datepicker.Time.month) :
    (model.Update datepicker.Update m (Msg.KeyMsg name)).1.datepicker.Time =
      { m.datepicker.Time with
        year := if m.datepicker.Time.month = 12 then m.datepicker.Time.year + 1
          else m.datepicker.Time.year
        month := if m.datepicker.Time.month = 12 then 1 else m.datepicker.Time.month + 1
        day := 1 } ∧
    (model.Update datepicker.Update m (Msg.KeyMsg name)).1.datepicker.visibleMonth =
      (if m.datepicker.Time.month = 12 then 1 else m.datepicker.Time.month + 1) ∧
    (model.Update datepicker.Update m (Msg.KeyMsg name)).1.datepicker.visibleYear =
      (if m.datepicker.Time.month = 12 then m.datepicker.Time.year + 1
        else m.datepicker.Time.year) ∧
    (model.Update datepicker.Update m (Msg.KeyMsg name)).1.selected = m.selected ∧
    (model.Update datepicker.Update m (Msg.KeyMsg name)).1.quitting = m.quitting := by
  have hne : Msg.KeyMsg name ≠ Msg.KeyMsg "enter" ∧ Msg.KeyMsg name ≠ Msg.KeyMsg "q" ∧
      Msg.KeyMsg name ≠ Msg.KeyMsg "ctrl+c" := by
    rcases hname with h | h <;> subst h <;> decide
  rw [model.Update_forward datepicker.Update m _ hne.1 hne.2.1 hne.2.2]
  simp only [model.forward, datepicker.Update_right m.datepicker name hname,
    datepicker.addDays_last_day m.datepicker.Time hlast]
  have h12 : m.datepicker.Time.month < 12 ↔ ¬ m.datepicker.Time.month = 12 := by omega
  unfold datepicker.moveTo
  split_ifs <;> simp_all

theorem C9_move_right_wraps_month_witness :
    (model.Update datepicker.Update (initialModel (date 2024 3 31))
        (Msg.KeyMsg "right")).1.datepicker.Time = date 2024 4 1 ∧
    (model.Update datepicker.Update (initialModel (date 2024 3 31))
        (Msg.KeyMsg "right")).1.datepicker.visibleMonth = 4 ∧
    (model.Update datepicker.Update (initialModel (date 2024 3 31))
        (Msg.KeyMsg "right")).1.datepicker.visibleYear = 2024 :=
  ⟨(C9_move_right_wraps_month (initialModel (date 2024 3 31)) "right" (Or.inl rfl)
      (by decide) (by decide)).1,
   (C9_move_right_wraps_month (initialModel (date 2024 3 31)) "right" (Or.inl rfl)
      (by decide) (by decide)).2.1,
   (C9_move_right_wraps_month (initialModel (date 2024 3 31)) "right" (Or.inl rfl)
      (by decide) (by decide)).2.2.1⟩

end Picker

end Datepicker
